import Mathlib

/-!
Verification of the encrypted configuration/persistence layer
(`common/config_manager.py` and `common/sqlite_manager.py`).

The Python code is shallowly embedded: Python runtime values become the
inductive type `Py`; the external primitives (Fernet authenticated
encryption, base64, PyYAML serialization, PBKDF2) are modelled by
executable Lean functions that reproduce the contracts the code relies
on (authenticated round-trip, injective encodings, YAML scalar
resolution for the strings reachable in this code base).
-/

set_option autoImplicit false

/-- Python runtime values, restricted to the shapes that flow through the
configuration and SQLite managers: `None`, `int`, `str`, `bytes`
(the payload of a bytes object is modelled as its character content),
`list` and `dict` (string-keyed, insertion ordered). -/
inductive Py where
  | pyNone : Py
  | int : Int → Py
  | str : String → Py
  | bytes : String → Py
  | list : List Py → Py
  | dict : List (String × Py) → Py

/-! ### Model of Fernet authenticated symmetric encryption

`cryptography.fernet.Fernet` produces an opaque text token from a key and
a plaintext; decryption with the same key recovers the plaintext exactly,
and decryption of anything that is not a token produced by that key
(wrong key, truncated or corrupted token, arbitrary text) fails.  The
model realizes this with an injective token format
`"gAAAA" ++ key(8 chars) ++ length(8 chars) ++ plaintext`; decryption
reconstructs the token from the candidate plaintext and compares, so any
tampering (in particular truncation) is rejected, like the real HMAC. -/

/-- Fixed-width (8 character) decimal field used in the modelled token. -/
def pad8 (n : Nat) : List Char :=
  let d := (Nat.repr n).data
  (List.replicate 8 '0' ++ d).drop d.length

theorem pad8_length (n : Nat) : (pad8 n).length = 8 := by
  simp [pad8]
  omega

/-- Version header of a Fernet token (real tokens start with `gAAAA`). -/
def fernetHeader : List Char := ['g', 'A', 'A', 'A', 'A']

/-- The modelled Fernet token for a key and plaintext. -/
def fernetTokenL (key len : Nat) (pt : List Char) : List Char :=
  fernetHeader ++ pad8 key ++ pad8 len ++ pt

/-- Model of `Fernet(key).encrypt(pt)` (token returned as text, as the code always
immediately calls `.decode()` on it). -/
def fernetEncrypt (key : Nat) (pt : String) : String :=
  ⟨fernetTokenL key pt.data.length pt.data⟩

/-- Model of `Fernet(key).decrypt(tok)`: `some plaintext` on success, `none` when
the token was not produced by this key (the `InvalidToken` exception). -/
def fernetDecrypt (key : Nat) (tok : String) : Option String :=
  let ptl := tok.data.drop 21
  if tok.data = fernetTokenL key ptl.length ptl then some ⟨ptl⟩ else none

theorem fernetTokenL_drop21 (key len : Nat) (pt : List Char) :
    (fernetTokenL key len pt).drop 21 = pt := by
  have h : (fernetHeader ++ (pad8 key ++ pad8 len)).length = 21 := by
    simp [fernetHeader, pad8_length]
  calc (fernetTokenL key len pt).drop 21
      = ((fernetHeader ++ (pad8 key ++ pad8 len)) ++ pt).drop 21 := by
        simp [fernetTokenL]
    _ = pt := by rw [← h, List.drop_left]

theorem fernet_roundtrip (key : Nat) (pt : String) :
    fernetDecrypt key (fernetEncrypt key pt) = some pt := by
  have hdata : (fernetEncrypt key pt).data = fernetTokenL key pt.data.length pt.data := rfl
  unfold fernetDecrypt
  rw [hdata, fernetTokenL_drop21]
  simp

/-! ### Model of base64

`base64.b64encode` / `b64decode` over the content of a bytes object,
combined with the `.decode()` (UTF-8) step the code applies right after:
an injective prefix encoding whose decoding fails on strings that are not
in its image (invalid base64 or invalid UTF-8 in the real library). -/

def b64encode (s : String) : String := ⟨'6' :: '4' :: '.' :: s.data⟩

def b64decode (b : String) : Option String :=
  match b.data with
  | '6' :: '4' :: '.' :: rest => some ⟨rest⟩
  | _ => none

theorem b64_roundtrip (s : String) : b64decode (b64encode s) = some s := by
  cases s
  rfl

/-! ### Model of PyYAML serialization

`yaml.dump` is applied by the code only to `dict`/`list` values; it
produces a text from which `yaml.safe_load` recovers the structure
exactly (PyYAML quotes nested scalars, so nested strings keep their
type).  `yaml.safe_load` on an arbitrary string resolves YAML scalars:
integer-looking strings become integers, the empty string and the null
words become `None`, strings that look like a serialized structure parse
as that structure, and everything else is returned as the string itself.
The model keeps exactly these behaviours, with an injective tagged text
format standing in for YAML block syntax.  (`safe_load` is modelled as
total: the strings reachable in this development are single plain
scalars or well-formed dumps, on which PyYAML does not raise.) -/

mutual

/-- Model of `yaml.dump`: injective, length-prefixed text encoding. -/
def encPy : Py → String
  | .pyNone => "Z;"
  | .int n => "I" ++ toString n ++ ";"
  | .str s => "S" ++ toString s.length ++ ":" ++ s
  | .bytes b => "B" ++ toString b.length ++ ":" ++ b
  | .list xs => "L" ++ encPyList xs ++ ";"
  | .dict xs => "D" ++ encPyPairs xs ++ ";"

def encPyList : List Py → String
  | [] => ""
  | x :: xs => encPy x ++ encPyList xs

def encPyPairs : List (String × Py) → String
  | [] => ""
  | (k, v) :: xs => "K" ++ toString k.length ++ ":" ++ k ++ encPy v ++ encPyPairs xs

end

/-- Value of a decimal digit character. -/
def digitVal (c : Char) : Option Nat :=
  if '0' ≤ c ∧ c ≤ '9' then some (c.toNat - 48) else none

/-- Consume a non-empty run of digits from the front of the input. -/
def readNatAux : List Char → Nat → Bool → Option (Nat × List Char)
  | [], acc, seen => if seen then some (acc, []) else none
  | c :: cs, acc, seen =>
    match digitVal c with
    | some d => readNatAux cs (acc * 10 + d) true
    | none => if seen then some (acc, c :: cs) else none

def readNat (cs : List Char) : Option (Nat × List Char) :=
  readNatAux cs 0 false

def readInt : List Char → Option (Int × List Char)
  | '-' :: cs => (readNat cs).map (fun p => (-(p.1 : Int), p.2))
  | cs => (readNat cs).map (fun p => ((p.1 : Int), p.2))

mutual

/-- Fuel-based parser for the `encPy` format (the structure-recognition
half of the `yaml.safe_load` model). -/
def parseP : Nat → List Char → Option (Py × List Char)
  | 0, _ => none
  | _ + 1, 'Z' :: ';' :: rest => some (.pyNone, rest)
  | _ + 1, 'I' :: rest =>
    match readInt rest with
    | some (n, ';' :: r) => some (.int n, r)
    | _ => none
  | _ + 1, 'S' :: rest =>
    match readNat rest with
    | some (n, ':' :: r) =>
      if n ≤ r.length then some (.str ⟨r.take n⟩, r.drop n) else none
    | _ => none
  | _ + 1, 'B' :: rest =>
    match readNat rest with
    | some (n, ':' :: r) =>
      if n ≤ r.length then some (.bytes ⟨r.take n⟩, r.drop n) else none
    | _ => none
  | fuel + 1, 'L' :: rest =>
    match parseItems fuel rest with
    | some (xs, r) => some (.list xs, r)
    | none => none
  | fuel + 1, 'D' :: rest =>
    match parsePairs fuel rest with
    | some (xs, r) => some (.dict xs, r)
    | none => none
  | _ + 1, _ => none

def parseItems : Nat → List Char → Option (List Py × List Char)
  | 0, _ => none
  | _ + 1, ';' :: rest => some ([], rest)
  | fuel + 1, cs =>
    match parseP fuel cs with
    | some (v, r) =>
      match parseItems fuel r with
      | some (vs, r2) => some (v :: vs, r2)
      | none => none
    | none => none

def parsePairs : Nat → List Char → Option (List (String × Py) × List Char)
  | 0, _ => none
  | _ + 1, ';' :: rest => some ([], rest)
  | fuel + 1, 'K' :: cs =>
    match readNat cs with
    | some (n, ':' :: r) =>
      if n ≤ r.length then
        match parseP fuel (r.drop n) with
        | some (v, r2) =>
          match parsePairs fuel r2 with
          | some (vs, r3) => some ((⟨r.take n⟩, v) :: vs, r3)
          | none => none
        | none => none
      else none
    | _ => none
  | _ + 1, _ => none

end

/-- Recognize a string that is a complete serialized structure. -/
def decodePy (s : String) : Option Py :=
  match parseP (s.data.length + 1) s.data with
  | some (v, []) => some v
  | _ => none

/-- Is the string a YAML integer literal (an optional minus sign followed
by one or more digits)? -/
def parseIntLit (s : String) : Option Int :=
  match s.data with
  | [] => none
  | '-' :: cs =>
    match readNat cs with
    | some (n, []) => some (-(n : Int))
    | _ => none
  | cs =>
    match readNat cs with
    | some (n, []) => some ((n : Int))
    | _ => none

/-- Model of `yaml.safe_load` on a single scalar/document string. -/
def yamlLoad (s : String) : Py :=
  if s = "" ∨ s = "null" ∨ s = "~" then .pyNone
  else
    match decodePy s with
    | some v => v
    | none =>
      match parseIntLit s with
      | some n => .int n
      | none => .str s

/-- Python `str()` on the values above (`str` is the identity on strings,
`repr` on numbers; containers and bytes stringify to their `repr`,
modelled opaquely since no claim reaches those branches). -/
def pyStr : Py → String
  | .str s => s
  | .int n => toString n
  | .pyNone => "None"
  | .bytes b => "bytes:" ++ b
  | .list xs => "pyrepr:" ++ encPy (.list xs)
  | .dict xs => "pyrepr:" ++ encPy (.dict xs)

/-! ### `ConfigManager` (src/common/config_manager.py)

The encryption key is an opaque parameter (`Nat`) standing for the Fernet
key held in `self.fernet`; the keyring, the YAML config file and the
machine identifier are explicit arguments/results instead of ambient
state. -/

namespace ConfigManager

/-- The serialization step inside `_encrypt` (lines 141-146): `dict`/
`list` values are dumped to YAML text, `str`/`int` are stringified, any
other type raises `ValueError` (modelled as `none`). -/
def encSerialize : Py → Option String
  | .dict xs => some (encPy (.dict xs))
  | .list xs => some (encPy (.list xs))
  | .str s => some s
  | .int n => some (toString n)
  | _ => none

/-- Embedding of `ConfigManager._encrypt` (lines 129-152): serialize, then Fernet
encrypt; on any failure the exception is logged and the original data is
returned unchanged. -/
def _encrypt (key : Nat) (data : Py) : Py :=
  match encSerialize data with
  | some s => .str (fernetEncrypt key s)
  | none => data

/-- Embedding of `ConfigManager._decrypt` (lines 154-174): Fernet decrypt, then try to
re-parse the plaintext as YAML (a string that is not further parseable
comes back as itself); on decryption failure the exception is logged and
the original input is returned unchanged. -/
def _decrypt (key : Nat) (data : String) : Py :=
  match fernetDecrypt key data with
  | some pt => yamlLoad pt
  | none => .str data

/-- The stringification applied by `save_config` (line 209) before
encrypting: `yaml.dump` for `dict`/`list`, Python `str()` otherwise. -/
def saveStr : Py → String
  | .dict xs => encPy (.dict xs)
  | .list xs => encPy (.list xs)
  | v => pyStr v

/-- Outcome of opening and YAML-parsing the config file, as seen by
`load_config`:  the file may be absent, unreadable, not parseable as
YAML, empty (`safe_load` returns `None`), parseable but not a mapping
(`.items()` raises), or a mapping from keys to envelope strings. -/
inductive FileState where
  | missing : FileState
  | unreadable : FileState
  | malformedDoc : FileState
  | emptyDoc : FileState
  | nonMapping : FileState
  | doc : List (String × String) → FileState

/-- The per-entry work of `load_config` (lines 190-191): decrypt the
stored string, and if the result is still a string, try once more to
parse it as YAML. -/
def loadVal (key : Nat) (s : String) : Py :=
  match _decrypt key s with
  | .str t => yamlLoad t
  | v => v

/-- Embedding of `ConfigManager.load_config` (lines 176-194): missing file and every
whole-document failure degrade to the empty mapping; otherwise each
entry is decrypted and re-parsed. -/
def load_config (key : Nat) (fs : FileState) : List (String × Py) :=
  match fs with
  | .doc entries => entries.map (fun e => (e.1, loadVal key e.2))
  | _ => []

/-- Lookup in a Python dict modelled as an insertion-ordered association
list. -/
def lookupA : List (String × Py) → String → Option Py
  | [], _ => none
  | (k, v) :: es, q => if k = q then some v else lookupA es q

/-- Python dict merge `\x7b**a, **b\x7d`: keys of `a` in order with values
overridden by `b`, followed by the keys of `b` not present in `a`. -/
def pyMerge (a b : List (String × Py)) : List (String × Py) :=
  a.map (fun e =>
    match lookupA b e.1 with
    | some w => (e.1, w)
    | none => e) ++
  b.filter (fun e => (lookupA a e.1).isNone)

/-- Python dict item assignment `d[k] = v`: replace in place if the key
exists, else append. -/
def pySetItem (d : List (String × Py)) (k : String) (v : Py) : List (String × Py) :=
  if (lookupA d k).isSome then
    d.map (fun e => (e.1, if e.1 = k then v else e.2))
  else d ++ [(k, v)]

/-- How `yaml.safe_dump` writes the values of `encrypted_data` into the
document; `_encrypt` always hands it strings here, so the non-string
branch (which would write the value's own YAML form) is unreachable. -/
def asDocString : Py → String
  | .str s => s
  | v => saveStr v

/-- Embedding of `ConfigManager.save_config` (lines 196-214): read-merge-write; every
merged value is stringified, encrypted and the whole document is
rewritten. -/
def save_config (key : Nat) (fs : FileState) (config_data : List (String × Py)) : FileState :=
  let existing := load_config key fs
  let merged := pyMerge existing config_data
  .doc (merged.map (fun e => (e.1, asDocString (_encrypt key (.str (saveStr e.2))))))

/-- Embedding of `ConfigManager.update_config` (lines 216-229): load, assign one key,
save. -/
def update_config (key : Nat) (fs : FileState) (k : String) (v : Py) : FileState :=
  let config_data := load_config key fs
  save_config key fs (pySetItem config_data k v)

/-- Hash algorithms of `cryptography.hazmat.primitives.hashes` used here. -/
inductive HashAlg where
  | sha256 : HashAlg
  deriving DecidableEq

/-- The parameters handed to `PBKDF2HMAC(...)` in `_generate_key`. -/
structure KDFParams where
  algorithm : HashAlg
  length : Nat
  salt : List Nat
  iterations : Nat

/-- Model of `PBKDF2HMAC(...).derive(password)` (the external KDF): a
deterministic function of the parameters and the password producing
`length` bytes; the internal compression is irrelevant to the claims. -/
def pbkdf2Derive (p : KDFParams) (password : String) : List Nat :=
  (List.range p.length).map
    (fun i => (p.iterations + p.salt.sum + password.length * (i + 1) + i) % 256)

theorem pbkdf2Derive_length (p : KDFParams) (password : String) :
    (pbkdf2Derive p password).length = p.length := by
  simp [pbkdf2Derive]

/-- Model of `base64.urlsafe_b64encode` on raw key bytes (an injective
textual rendering). -/
def urlsafeB64encode (bs : List Nat) : String :=
  "u64." ++ String.intercalate "." (bs.map (fun b => toString b))

/-- The `PBKDF2HMAC` construction in `_generate_key` (lines 119-125):
SHA-256, 32-byte output, the machine salt, 100000 iterations. -/
def generateKeyParams (salt : List Nat) : KDFParams :=
  ⟨HashAlg.sha256, 32, salt, 100000⟩

/-- Embedding of `ConfigManager._generate_key` (lines 108-127): derive 32 bytes via
PBKDF2-HMAC-SHA256 and base64-url encode them. -/
def _generate_key (password : String) (salt : List Nat) : String :=
  urlsafeB64encode (pbkdf2Derive (generateKeyParams salt) password)

/-- Embedding of `self.salt = uuid.UUID(int=uuid.getnode()).bytes` (line 83): the
16 bytes (big-endian) of the 128-bit integer built from the stable
machine identifier returned by `uuid.getnode()`. -/
def deriveSalt (machineId : Nat) : List Nat :=
  (List.range 16).map (fun i => machineId / 256 ^ (15 - i) % 256)

theorem deriveSalt_length (machineId : Nat) : (deriveSalt machineId).length = 16 := by
  simp [deriveSalt]

/-- Failure of the key-acquisition path.  With no stored key and
`password = None`, `_generate_key` evaluates `password.encode()` on
`None`; the resulting exception (an `AttributeError` in CPython — the
condition the spec's taxonomy names `MissingCredential`) propagates
uncaught through `_get_or_create_key` and `__init__` to the caller. -/
inductive KeyErr where
  | missingCredential : KeyErr
  deriving DecidableEq

/-- Embedding of `ConfigManager._get_or_create_key` (lines 87-106), with the keyring
entry for `("your_system", "encryption_key")` passed in as `stored` and
the updated keyring entry returned alongside the key.  A stored key is
used only when it is truthy (a non-empty string) and `reset_key` is
false; otherwise a new key is derived from the password and stored. -/
def _get_or_create_key (stored : Option String) (password : Option String)
    (reset_key : Bool) (salt : List Nat) : Except KeyErr (String × Option String) :=
  let createNew : Except KeyErr (String × Option String) :=
    match password with
    | none => .error KeyErr.missingCredential
    | some pw =>
      let new_key := _generate_key pw salt
      .ok (new_key, some new_key)
  match stored, reset_key with
  | some k, false => if k = "" then createNew else .ok (k, some k)
  | _, _ => createNew

end ConfigManager

namespace ConfigManager

/-- Modelled from the spec: `SQLiteManager` calls `ConfigManager.encrypt`,
a public method that does not exist in the source (the class defines only
`_encrypt`); the spec's Envelope Codec contract for `encrypt` (§4.2) is
exactly the behaviour of `_encrypt`, so the missing method is modelled as
`_encrypt`. -/
def encrypt (key : Nat) (data : Py) : Py := _encrypt key data

/-- Modelled from the spec: `SQLiteManager` calls `ConfigManager.decrypt`,
a public method that does not exist in the source (the class defines only
`_decrypt`); the spec's Envelope Codec contract for `decrypt` (§4.2) is
exactly the behaviour of `_decrypt`, so the missing method is modelled as
`_decrypt`. -/
def decrypt (key : Nat) (data : String) : Py := _decrypt key data

end ConfigManager

/-! ### `SQLiteManager` (src/common/sqlite_manager.py)

The SQLite database is modelled per table: a list of column names and a
list of rows, each row a list of cells aligned with the columns.  Cells
carry the SQLite storage classes reachable here (`NULL`, `INTEGER`,
`TEXT`, `BLOB`) as `Py` values (`pyNone`, `int`, `str`, `bytes`), which
is also how `sqlite3` returns them to Python. -/

namespace SQLiteManager

/-- A table as stored in the database. -/
structure Table where
  columns : List String
  rows : List (List Py)

/-- Embedding of `SQLiteManager.create_table` (lines 93-110): `CREATE TABLE IF NOT
EXISTS` with the given column names (declared types only determine
affinity, which never converts the BLOB/TEXT values bound here). -/
def create_table (columns : List (String × String)) : Table :=
  ⟨columns.map Prod.fst, []⟩

/-- Model of `.encode()` on the result of `ConfigManager.encrypt`: defined only on
`str`, and `encrypt` applied to a `str` always returns a `str`, so the
default branch is unreachable. -/
def asStr : Py → String
  | .str s => s
  | _ => ""

/-- The value bound for one inserted column (line 128):
`base64.b64encode(self.config_manager.encrypt(str(value)).encode())`,
a bytes object, stored by SQLite as a BLOB. -/
def encryptedCell (key : Nat) (value : Py) : Py :=
  .bytes (b64encode (asStr (ConfigManager.encrypt key (.str (pyStr value)))))

/-- Embedding of `SQLiteManager.insert_data` (lines 112-134): a parameterized
`INSERT INTO t (cols...) VALUES (?...)`; every bound value is the
enveloped, base64-encoded bytes of the stringified input, and table
columns absent from `data` are left NULL. -/
def insert_data (key : Nat) (tbl : Table) (data : List (String × Py)) : Table :=
  let row := tbl.columns.map (fun c =>
    match ConfigManager.lookupA data c with
    | some v => encryptedCell key v
    | none => Py.pyNone)
  ⟨tbl.columns, tbl.rows ++ [row]⟩

/-- SQLite equality between a stored cell and a bound parameter: NULL
compares equal to nothing, values of different storage classes are never
equal, values of the same class compare by content. -/
def sqliteEq : Py → Py → Bool
  | .int a, .int b => a == b
  | .str a, .str b => a == b
  | .bytes a, .bytes b => a == b
  | _, _ => false

/-- The cell of a row under a column name. -/
def cellAt (columns : List String) (row : List Py) (c : String) : Option Py :=
  (columns.zip row).findSome? (fun e => if e.1 = c then some e.2 else none)

/-- Does a row satisfy the AND-joined equality conditions of the
parameterized WHERE clause built by `get_data` (line 155)? -/
def condsMatch (columns : List String) (row : List Py) (conds : List (String × Py)) : Bool :=
  conds.all (fun cond =>
    match cellAt columns row cond.1 with
    | some cell => sqliteEq cell cond.2
    | none => false)

/-- The per-cell work of `_decrypt_rows` (lines 183-192): `None` and
non-bytes values pass through unchanged; a bytes value is base64-decoded,
UTF-8 decoded and decrypted, and any failure in that block is re-raised
as `ValueError` naming the column. -/
def decryptCell (key : Nat) (col : String) (value : Py) : Except String Py :=
  match value with
  | .bytes b =>
    match b64decode b with
    | some s => .ok (ConfigManager.decrypt key s)
    | none => .error ("Error decrypting value for " ++ col)
  | v => .ok v

/-- Embedding of `SQLiteManager._decrypt_rows` (lines 166-194): zip each row with the
column names and decrypt cell by cell; the first `ValueError` aborts. -/
def _decrypt_rows (key : Nat) (column_names : List String) (rows : List (List Py)) :
    Except String (List (List (String × Py))) :=
  rows.mapM (fun row =>
    (column_names.zip row).mapM (fun e =>
      (decryptCell key e.1 e.2).map (fun w => (e.1, w))))

/-- Embedding of `SQLiteManager.get_data` (lines 136-164): read the column names from
the schema, fetch the rows matching the parameterized WHERE clause (the
condition values are bound as given, unencrypted), and decrypt them.  A
condition on a column absent from the schema is an SQL error. -/
def get_data (key : Nat) (tbl : Table) (conds : List (String × Py)) :
    Except String (List (List (String × Py))) :=
  if conds.all (fun cond => tbl.columns.contains cond.1) then
    _decrypt_rows key tbl.columns
      (tbl.rows.filter (fun row => condsMatch tbl.columns row conds))
  else .error "no such column"

end SQLiteManager

/-! ### Claims -/

/-- C3: when a key is already stored (a truthy keyring entry) and
`reset_key` is false, `_get_or_create_key` returns the stored key
unchanged and leaves the keyring as it was; the password argument has no
effect, so two successive calls with any passwords return the identical
key. -/
theorem getOrCreateKey_existing_ignores_password (k : String) (pw1 pw2 : Option String)
    (salt1 salt2 : List Nat) (hk : k ≠ "") :
    ConfigManager._get_or_create_key (some k) pw1 false salt1 = .ok (k, some k) ∧
    ConfigManager._get_or_create_key (some k) pw2 false salt2 = .ok (k, some k) := by
  constructor <;> simp [ConfigManager._get_or_create_key, hk]

theorem getOrCreateKey_existing_ignores_password_witness :
    ("STORED" : String) ≠ "" ∧
    ConfigManager._get_or_create_key (some "STORED") none false [] =
      .ok ("STORED", some "STORED") ∧
    ConfigManager._get_or_create_key (some "STORED") (some "other-password") false [1] =
      .ok ("STORED", some "STORED") := by
  refine ⟨by decide, ?_, ?_⟩
  · exact (getOrCreateKey_existing_ignores_password "STORED" none (some "other-password")
      [] [1] (by decide)).1
  · exact (getOrCreateKey_existing_ignores_password "STORED" none (some "other-password")
      [] [1] (by decide)).2

/-- C4: with no stored key, no password and no reset, key acquisition
fails with the missing-credential error, which nothing in the class
catches, so it surfaces to the caller. -/
theorem getOrCreateKey_missing_password_fails (salt : List Nat) :
    ConfigManager._get_or_create_key none none false salt =
      .error ConfigManager.KeyErr.missingCredential := rfl

/-- C5: `load_config` is a total function of the file-system state, and
on a missing file as well as on every whole-document read/parse failure
(unreadable file, malformed YAML, empty document, non-mapping document)
it returns the empty mapping. -/
theorem load_config_degrades_to_empty (key : Nat) :
    ConfigManager.load_config key .missing = [] ∧
    ConfigManager.load_config key .unreadable = [] ∧
    ConfigManager.load_config key .malformedDoc = [] ∧
    ConfigManager.load_config key .emptyDoc = [] ∧
    ConfigManager.load_config key .nonMapping = [] :=
  ⟨rfl, rfl, rfl, rfl, rfl⟩

/-- C9: a newly created key is PBKDF2-HMAC-SHA256 of the password with
100000 (≥ 100000) iterations, the 16-byte (128-bit) salt derived from the
machine identifier, and 32-byte output, base64-url encoded; the whole
derivation is a pure function of (password, machine identifier). -/
theorem generate_key_kdf_parameters (machineId : Nat) (password : String) :
    (ConfigManager.generateKeyParams (ConfigManager.deriveSalt machineId)).algorithm =
      ConfigManager.HashAlg.sha256 ∧
    100000 ≤ (ConfigManager.generateKeyParams (ConfigManager.deriveSalt machineId)).iterations ∧
    (ConfigManager.generateKeyParams (ConfigManager.deriveSalt machineId)).length = 32 ∧
    (ConfigManager.pbkdf2Derive
      (ConfigManager.generateKeyParams (ConfigManager.deriveSalt machineId)) password).length = 32 ∧
    (ConfigManager.deriveSalt machineId).length = 16 ∧
    ConfigManager._generate_key password (ConfigManager.deriveSalt machineId) =
      ConfigManager.urlsafeB64encode (ConfigManager.pbkdf2Derive
        (ConfigManager.generateKeyParams (ConfigManager.deriveSalt machineId)) password) :=
  ⟨rfl, le_refl _, rfl,
   ConfigManager.pbkdf2Derive_length _ _,
   ConfigManager.deriveSalt_length _, rfl⟩

/-- The stored envelope for plaintext `"hello"` under key 0 with its last
character cut off, as in the spec's corrupted-ciphertext scenario. -/
def corruptedEnvelope : String := "gAAAA0000000000000005hell"

/-- C8: whenever authenticated decryption of a blob fails, `_decrypt`
returns the blob unchanged (as a string); consequently `load_config` on a
document holding one truncated envelope does not fail, returns the
truncated text as that key's value, and decrypts every other entry
normally. -/
theorem decrypt_failure_returns_input (key : Nat) (blob : String)
    (h : fernetDecrypt key blob = none) :
    ConfigManager._decrypt key blob = Py.str blob ∧
    corruptedEnvelope.push 'o' = fernetEncrypt 0 "hello" ∧
    fernetDecrypt 0 corruptedEnvelope = none ∧
    ConfigManager.load_config 0
      (.doc [("good", fernetEncrypt 0 "hello"), ("bad", corruptedEnvelope)]) =
      [("good", Py.str "hello"), ("bad", Py.str corruptedEnvelope)] := by
  refine ⟨?_, rfl, rfl, rfl⟩
  unfold ConfigManager._decrypt
  rw [h]

theorem decrypt_failure_returns_input_witness :
    fernetDecrypt 7 "not-an-envelope" = none ∧
    ConfigManager._decrypt 7 "not-an-envelope" = Py.str "not-an-envelope" :=
  ⟨rfl, (decrypt_failure_returns_input 7 "not-an-envelope" rfl).1⟩

/-- C10: in the select path, a fetched cell is base64-decoded and
decrypted exactly when it is a (non-null) bytes object: anything that is
`None` or not bytes passes through unchanged, a decodable bytes cell
comes back decrypted, and a decode failure is re-raised as a `ValueError`
naming the column. -/
theorem decrypt_rows_cell_policy (key : Nat) (col : String) (value : Py) :
    ((∀ b, value ≠ Py.bytes b) → SQLiteManager.decryptCell key col value = .ok value) ∧
    (∀ b, value = Py.bytes b →
      (∀ s, b64decode b = some s →
        SQLiteManager.decryptCell key col value = .ok (ConfigManager.decrypt key s)) ∧
      (b64decode b = none →
        SQLiteManager.decryptCell key col value =
          .error ("Error decrypting value for " ++ col))) := by
  constructor
  · intro h
    cases value with
    | bytes b => exact absurd rfl (h b)
    | pyNone => rfl
    | int n => rfl
    | str s => rfl
    | list xs => rfl
    | dict xs => rfl
  · rintro b rfl
    constructor
    · intro s hs
      simp [SQLiteManager.decryptCell, hs]
    · intro hn
      simp [SQLiteManager.decryptCell, hn]

theorem decrypt_rows_cell_policy_witness :
    SQLiteManager.decryptCell 0 "id" (Py.int 7) = .ok (Py.int 7) ∧
    SQLiteManager.decryptCell 0 "id" Py.pyNone = .ok Py.pyNone ∧
    b64decode (b64encode (fernetEncrypt 0 "30")) = some (fernetEncrypt 0 "30") ∧
    SQLiteManager.decryptCell 0 "age" (Py.bytes (b64encode (fernetEncrypt 0 "30"))) =
      .ok (Py.int 30) ∧
    b64decode "zz" = none ∧
    SQLiteManager.decryptCell 0 "age" (Py.bytes "zz") =
      .error "Error decrypting value for age" := by
  refine ⟨?_, ?_, rfl, ?_, rfl, ?_⟩
  · exact (decrypt_rows_cell_policy 0 "id" (Py.int 7)).1 (fun b h => Py.noConfusion h)
  · exact (decrypt_rows_cell_policy 0 "id" Py.pyNone).1 (fun b h => Py.noConfusion h)
  · exact ((decrypt_rows_cell_policy 0 "age"
        (Py.bytes (b64encode (fernetEncrypt 0 "30")))).2
        (b64encode (fernetEncrypt 0 "30")) rfl).1 (fernetEncrypt 0 "30") rfl
  · exact ((decrypt_rows_cell_policy 0 "age" (Py.bytes "zz")).2 "zz" rfl).2 rfl

/-- C2 (failing scenario): after inserting `(name: A, age: 30)` and
`(name: B, age: 40)` — each value enveloped, base64-encoded and bound as
a BLOB parameter — the conditional select binds the *plaintext* `"A"`
against the stored ciphertext BLOBs, so `get_data` returns zero rows
instead of the one row the claim requires, for every key. -/
theorem conditional_select_returns_no_rows (key : Nat) :
    SQLiteManager.get_data key
      (SQLiteManager.insert_data key
        (SQLiteManager.insert_data key
          (SQLiteManager.create_table [("name", "TEXT"), ("age", "INTEGER")])
          [("name", Py.str "A"), ("age", Py.int 30)])
        [("name", Py.str "B"), ("age", Py.int 40)])
      [("name", Py.str "A")] = .ok [] := by
  simp only [SQLiteManager.get_data, SQLiteManager.insert_data, SQLiteManager.create_table,
    SQLiteManager._decrypt_rows, SQLiteManager.condsMatch, SQLiteManager.cellAt,
    SQLiteManager.encryptedCell, SQLiteManager.sqliteEq, ConfigManager.lookupA,
    List.filter, List.all, List.zip]
  rfl

/-- C1 (amended): for every supported value whose serialized form
re-parses under YAML to the value itself, decrypting the encryption under
the same key returns the value. -/
theorem encrypt_then_decrypt_identity (key : Nat) (v : Py) (s : String)
    (hser : ConfigManager.encSerialize v = some s) (hload : yamlLoad s = v) :
    ConfigManager._encrypt key v = Py.str (fernetEncrypt key s) ∧
    ConfigManager._decrypt key (fernetEncrypt key s) = v := by
  constructor
  · unfold ConfigManager._encrypt
    rw [hser]
  · unfold ConfigManager._decrypt
    rw [fernet_roundtrip]
    exact hload

theorem encrypt_then_decrypt_identity_witness :
    (ConfigManager.encSerialize (Py.int 30) = some "30" ∧ yamlLoad "30" = Py.int 30 ∧
      ConfigManager._decrypt 0 (fernetEncrypt 0 "30") = Py.int 30) ∧
    ConfigManager._decrypt 0 (fernetEncrypt 0 "hello") = Py.str "hello" ∧
    ConfigManager._decrypt 1 (fernetEncrypt 1 (encPy (Py.dict [("a", Py.int 1)]))) =
      Py.dict [("a", Py.int 1)] ∧
    ConfigManager._decrypt 2 (fernetEncrypt 2 (encPy (Py.list [Py.str "x", Py.int 2]))) =
      Py.list [Py.str "x", Py.int 2] := by
  refine ⟨⟨rfl, rfl, ?_⟩, ?_, ?_, ?_⟩
  · exact (encrypt_then_decrypt_identity 0 (Py.int 30) "30" rfl rfl).2
  · exact (encrypt_then_decrypt_identity 0 (Py.str "hello") "hello" rfl rfl).2
  · exact (encrypt_then_decrypt_identity 1 (Py.dict [("a", Py.int 1)]) _ rfl rfl).2
  · exact (encrypt_then_decrypt_identity 2 (Py.list [Py.str "x", Py.int 2]) _ rfl rfl).2

/-- C1 (counterexample to the original claim): the supported string value
`"1"` encrypts fine, but decryption re-parses the plaintext as YAML and
returns the integer 1, not the original string. -/
theorem roundtrip_fails_on_numeric_string :
    ConfigManager._encrypt 0 (Py.str "1") = Py.str "gAAAA00000000000000011" ∧
    ConfigManager._decrypt 0 "gAAAA00000000000000011" = Py.int 1 ∧
    Py.int 1 ≠ Py.str "1" :=
  ⟨rfl, rfl, fun h => Py.noConfusion h⟩

/-! ### Association-list lemmas for the document store -/

namespace ConfigManager

theorem lookupA_eq_none_iff (l : List (String × Py)) (q : String) :
    lookupA l q = none ↔ q ∉ l.map Prod.fst := by
  induction l with
  | nil => simp [lookupA]
  | cons a t ih =>
    by_cases h : a.1 = q
    · simp [lookupA, h]
    · simp [lookupA, h, ih, Ne.symm h]

theorem lookupA_mem (l : List (String × Py)) (q : String) (w : Py)
    (h : lookupA l q = some w) : (q, w) ∈ l := by
  induction l with
  | nil => simp [lookupA] at h
  | cons a t ih =>
    by_cases hq : a.1 = q
    · simp only [lookupA, if_pos hq] at h
      obtain rfl := Option.some_injective _ h
      exact hq ▸ List.mem_cons_self a t
    · simp only [lookupA, if_neg hq] at h
      exact List.mem_cons_of_mem a (ih h)

theorem lookupA_self_of_nodup (l : List (String × Py))
    (hnd : (l.map Prod.fst).Nodup) (e : String × Py) (he : e ∈ l) :
    lookupA l e.1 = some e.2 := by
  induction l with
  | nil => cases he
  | cons a t ih =>
    rcases List.mem_cons.mp he with rfl | het
    · simp [lookupA]
    · have hne : a.1 ≠ e.1 := by
        intro hcontra
        exact (List.nodup_cons.mp hnd).1 (hcontra ▸ List.mem_map_of_mem Prod.fst het)
      simp only [lookupA, if_neg hne]
      exact ih (List.nodup_cons.mp hnd).2 het

theorem lookupA_append (a b : List (String × Py)) (q : String) :
    lookupA (a ++ b) q = (lookupA a q).or (lookupA b q) := by
  induction a with
  | nil => simp [lookupA]
  | cons x t ih =>
    by_cases h : x.1 = q
    · simp [lookupA, h]
    · simp [lookupA, h, ih]

theorem pyMerge_nil_left (p : List (String × Py)) : pyMerge [] p = p := by
  simp [pyMerge, lookupA]

end ConfigManager

namespace ConfigManager

theorem lookupA_map_update (L : List (String × Py)) (k : String) (v : Py)
    (hnd : (L.map Prod.fst).Nodup) (e : String × Py) (he : e ∈ L) :
    lookupA (L.map (fun x => (x.1, if x.1 = k then v else x.2))) e.1 =
      some (if e.1 = k then v else e.2) := by
  induction L with
  | nil => cases he
  | cons a t ih =>
    rcases List.mem_cons.mp he with rfl | het
    · simp [lookupA]
    · have hne : a.1 ≠ e.1 := by
        intro hcontra
        exact (List.nodup_cons.mp hnd).1 (hcontra ▸ List.mem_map_of_mem Prod.fst het)
      simp only [List.map_cons, lookupA, if_neg hne]
      exact ih (List.nodup_cons.mp hnd).2 het

theorem pyMerge_setItem (L : List (String × Py)) (k : String) (v : Py)
    (hnd : (L.map Prod.fst).Nodup) :
    pyMerge L (pySetItem L k v) = pyMerge L [(k, v)] := by
  have hmem_isSome : ∀ e ∈ L, (lookupA L e.1).isSome := by
    intro e he
    rw [lookupA_self_of_nodup L hnd e he]
    rfl
  by_cases hk : (lookupA L k).isSome
  · -- the key already exists: assignment replaces the value in place
    unfold pySetItem
    rw [if_pos hk]
    unfold pyMerge
    have hmap : ∀ e ∈ L,
        (match lookupA (L.map (fun x => (x.1, if x.1 = k then v else x.2))) e.1 with
         | some w => (e.1, w)
         | none => e) =
        (match lookupA [(k, v)] e.1 with
         | some w => (e.1, w)
         | none => e) := by
      intro e he
      rw [lookupA_map_update L k v hnd e he]
      by_cases hek : e.1 = k
      · have : k = e.1 := hek.symm
        simp [lookupA, this, if_pos hek]
      · have : ¬(k = e.1) := fun hh => hek hh.symm
        simp [lookupA, this, if_neg hek]
    have hfL : (L.map (fun x => (x.1, if x.1 = k then v else x.2))).filter
        (fun e => (lookupA L e.1).isNone) = [] := by
      rw [List.filter_eq_nil_iff]
      intro e he
      obtain ⟨x, hx, rfl⟩ := List.mem_map.mp he
      simp only [Option.isNone_iff_eq_none]
      intro hnone
      have := hmem_isSome x hx
      rw [hnone] at this
      cases this
    have hfR : ([(k, v)]).filter (fun e => (lookupA L e.1).isNone) = [] := by
      rw [List.filter_eq_nil_iff]
      intro e he
      obtain rfl := List.mem_singleton.mp he
      simp only [Option.isNone_iff_eq_none]
      intro hnone
      rw [hnone] at hk
      cases hk
    rw [hfL, hfR, List.map_congr_left hmap]
  · -- new key: assignment appends it at the end
    have hknone : lookupA L k = none := by
      cases h : lookupA L k
      · rfl
      · rw [h] at hk
        cases hk rfl
    unfold pySetItem
    rw [if_neg (by rw [hknone]; intro h; cases h)]
    unfold pyMerge
    have hmap : ∀ e ∈ L,
        (match lookupA (L ++ [(k, v)]) e.1 with
         | some w => (e.1, w)
         | none => e) =
        (match lookupA [(k, v)] e.1 with
         | some w => (e.1, w)
         | none => e) := by
      intro e he
      have hke : ¬(k = e.1) := by
        intro hh
        have := hmem_isSome e he
        rw [← hh, hknone] at this
        cases this
      rw [lookupA_append, lookupA_self_of_nodup L hnd e he]
      simp [lookupA, hke]
    have hfL : (L ++ [(k, v)]).filter (fun e => (lookupA L e.1).isNone) =
        [(k, v)] := by
      rw [List.filter_append]
      have h1 : L.filter (fun e => (lookupA L e.1).isNone) = [] := by
        rw [List.filter_eq_nil_iff]
        intro e he
        simp only [Option.isNone_iff_eq_none]
        intro hnone
        have := hmem_isSome e he
        rw [hnone] at this
        cases this
      have h2 : ([(k, v)]).filter (fun e => (lookupA L e.1).isNone) = [(k, v)] := by
        simp [List.filter, hknone]
      rw [h1, h2]
      rfl
    have hfR : ([(k, v)]).filter (fun e => (lookupA L e.1).isNone) = [(k, v)] := by
      simp [List.filter, hknone]
    rw [hfL, hfR, List.map_congr_left hmap]

end ConfigManager

/-! ### Round-trip stability through the document store -/

/-- A value is YAML-stable when re-parsing its stringified form (the
exact plaintext `save_config` encrypts) yields the value back.  This
holds for every integer, for dumps of structures, and for strings that
do not resolve to another YAML scalar; it fails e.g. for the string
`"1"`. -/
def yamlStable (v : Py) : Prop :=
  yamlLoad (ConfigManager.saveStr v) = v

namespace ConfigManager

/-- Decrypt-and-reparse undoes encrypt-of-stringify on stable values. -/
theorem loadVal_roundtrip (key : Nat) (v : Py) (hv : yamlStable v) :
    loadVal key (fernetEncrypt key (saveStr v)) = v := by
  have h1 : _decrypt key (fernetEncrypt key (saveStr v)) = yamlLoad (saveStr v) := by
    unfold _decrypt
    rw [fernet_roundtrip]
  unfold yamlStable at hv
  unfold loadVal
  rw [h1, hv]
  cases v with
  | str s => exact hv
  | pyNone => rfl
  | int n => rfl
  | bytes b => rfl
  | list xs => rfl
  | dict xs => rfl

/-- Loading a document written by `save_config` recovers exactly the
mapping that was written, entry by entry, when every value is stable. -/
theorem load_config_of_saved (key : Nat) (xs : List (String × Py))
    (h : ∀ e ∈ xs, yamlStable e.2) :
    load_config key (.doc (xs.map (fun e =>
      (e.1, asDocString (_encrypt key (.str (saveStr e.2))))))) = xs := by
  show List.map (fun e => (e.1, loadVal key e.2))
    (xs.map (fun e => (e.1, asDocString (_encrypt key (.str (saveStr e.2)))))) = xs
  rw [List.map_map]
  have : ∀ e ∈ xs,
      ((fun e => (e.1, loadVal key e.2)) ∘
        (fun e => (e.1, asDocString (_encrypt key (.str (saveStr e.2)))))) e = id e := by
    intro e he
    show (e.1, loadVal key (asDocString (_encrypt key (.str (saveStr e.2))))) = e
    have harg : asDocString (_encrypt key (.str (saveStr e.2))) =
        fernetEncrypt key (saveStr e.2) := rfl
    rw [harg, loadVal_roundtrip key e.2 (h e he)]
  rw [List.map_congr_left this, List.map_id]

/-- Unfolding lemma: `save_config` yields exactly the encrypted form of the merged
mapping. -/
theorem save_config_eq (key : Nat) (fs : FileState) (p : List (String × Py)) :
    save_config key fs p = .doc ((pyMerge (load_config key fs) p).map (fun e =>
      (e.1, asDocString (_encrypt key (.str (saveStr e.2)))))) := rfl

/-- Stability of every value of a merge follows from stability of the
values on both sides. -/
theorem pyMerge_stable (a b : List (String × Py))
    (ha : ∀ e ∈ a, yamlStable e.2) (hb : ∀ e ∈ b, yamlStable e.2) :
    ∀ e ∈ pyMerge a b, yamlStable e.2 := by
  intro e he
  unfold pyMerge at he
  rcases List.mem_append.mp he with hl | hr
  · obtain ⟨x, hx, rfl⟩ := List.mem_map.mp hl
    cases hlk : lookupA b x.1 with
    | some w => exact hb (x.1, w) (lookupA_mem b x.1 w hlk)
    | none => exact ha x hx
  · exact hb e (List.mem_of_mem_filter hr)

end ConfigManager

/-- C6 (amended): starting from a stored mapping `m` (written by a save
onto an empty store) whose values are YAML-stable, saving a partial
mapping `p` with YAML-stable values leaves the store so that `load_config`
returns the Python merge of `m` and `p` — `p` wins on key conflicts and
the other keys of `m` are untouched. -/
theorem save_merges_over_load (key : Nat) (m p : List (String × Py))
    (hm : ∀ e ∈ m, yamlStable e.2) (hp : ∀ e ∈ p, yamlStable e.2) :
    ConfigManager.load_config key
      (ConfigManager.save_config key
        (ConfigManager.save_config key .missing m) p) =
      ConfigManager.pyMerge m p := by
  have h1 : ConfigManager.load_config key
      (ConfigManager.save_config key .missing m) = m := by
    rw [ConfigManager.save_config_eq]
    have : ConfigManager.pyMerge (ConfigManager.load_config key .missing) m = m := by
      show ConfigManager.pyMerge [] m = m
      exact ConfigManager.pyMerge_nil_left m
    rw [this]
    exact ConfigManager.load_config_of_saved key m hm
  rw [ConfigManager.save_config_eq, h1]
  exact ConfigManager.load_config_of_saved key (ConfigManager.pyMerge m p)
    (ConfigManager.pyMerge_stable m p hm hp)

theorem save_merges_over_load_witness :
    (∀ e ∈ [("a", Py.int 1)], yamlStable e.2) ∧
    (∀ e ∈ [("b", Py.int 2)], yamlStable e.2) ∧
    (∀ e ∈ [("a", Py.int 3)], yamlStable e.2) ∧
    ConfigManager.load_config 0 (ConfigManager.save_config 0
      (ConfigManager.save_config 0 .missing [("a", Py.int 1)]) [("b", Py.int 2)]) =
      [("a", Py.int 1), ("b", Py.int 2)] ∧
    ConfigManager.load_config 0 (ConfigManager.save_config 0
      (ConfigManager.save_config 0 .missing [("a", Py.int 1)]) [("a", Py.int 3)]) =
      [("a", Py.int 3)] := by
  have h1 : ∀ e ∈ [("a", Py.int 1)], yamlStable e.2 := by
    intro e he
    obtain rfl := List.mem_singleton.mp he
    rfl
  have h2 : ∀ e ∈ [("b", Py.int 2)], yamlStable e.2 := by
    intro e he
    obtain rfl := List.mem_singleton.mp he
    rfl
  have h3 : ∀ e ∈ [("a", Py.int 3)], yamlStable e.2 := by
    intro e he
    obtain rfl := List.mem_singleton.mp he
    rfl
  exact ⟨h1, h2, h3,
    save_merges_over_load 0 [("a", Py.int 1)] [("b", Py.int 2)] h1 h2,
    save_merges_over_load 0 [("a", Py.int 1)] [("a", Py.int 3)] h1 h3⟩

/-- C6 (counterexample to the original claim): from an empty store,
saving the string value `"1"` under key `a` makes `load_config` return
the integer 1 for `a`, not the merge of the stored mapping with
`[("a", "1")]`. -/
theorem save_merge_fails_on_numeric_string :
    ConfigManager.load_config 0
      (ConfigManager.save_config 0 .missing [("a", Py.str "1")]) =
      [("a", Py.int 1)] ∧
    ConfigManager.pyMerge [] [("a", Py.str "1")] = [("a", Py.str "1")] ∧
    Py.int 1 ≠ Py.str "1" :=
  ⟨rfl, rfl, fun h => Py.noConfusion h⟩

/-- C7: `update_config key value` and `save_config {key: value}` produce
the identical persisted document from any starting state (whose loaded
keys are distinct, as YAML mappings guarantee). -/
theorem update_config_eq_save_single (key : Nat) (fs : ConfigManager.FileState)
    (k : String) (v : Py)
    (hnd : ((ConfigManager.load_config key fs).map Prod.fst).Nodup) :
    ConfigManager.update_config key fs k v =
      ConfigManager.save_config key fs [(k, v)] := by
  unfold ConfigManager.update_config
  rw [ConfigManager.save_config_eq, ConfigManager.save_config_eq,
    ConfigManager.pyMerge_setItem (ConfigManager.load_config key fs) k v hnd]

theorem update_config_eq_save_single_witness :
    ((ConfigManager.load_config 0
      (.doc [("a", fernetEncrypt 0 "5")])).map Prod.fst).Nodup ∧
    ConfigManager.update_config 0 (.doc [("a", fernetEncrypt 0 "5")]) "a" (Py.int 9) =
      ConfigManager.save_config 0 (.doc [("a", fernetEncrypt 0 "5")]) [("a", Py.int 9)] ∧
    ConfigManager.update_config 0 (.doc [("a", fernetEncrypt 0 "5")]) "b" (Py.int 7) =
      ConfigManager.save_config 0 (.doc [("a", fernetEncrypt 0 "5")]) [("b", Py.int 7)] := by
  have hnd : ((ConfigManager.load_config 0
      (.doc [("a", fernetEncrypt 0 "5")])).map Prod.fst).Nodup := by
    show (["a"] : List String).Nodup
    exact List.nodup_singleton "a"
  exact ⟨hnd,
    update_config_eq_save_single 0 (.doc [("a", fernetEncrypt 0 "5")]) "a" (Py.int 9) hnd,
    update_config_eq_save_single 0 (.doc [("a", fernetEncrypt 0 "5")]) "b" (Py.int 7) hnd⟩
